import Mathlib

/-!
Shallow embedding of `src/dashboard/app.py` (the Distil dashboard): the
Elasticsearch-backed query layer (`fetch_pipelines`, `fetch_completions`),
the mutation layer (`add_tag`, `rate_completion`), the client-side filters
of tab 1 (minimum rating, tag substring search) and the tag-frequency
computation of tab 2.

Modelling conventions:
* An Elasticsearch document `_source` is a record whose optional fields are
  `Option`-valued (a field absent from the document is `none`; the Python
  code tests presence with `'@timestamp' in doc` / `ctx._source.containsKey`).
* Store reads are parameterised by the store contents; a read that can fail
  (the `try`/`except` around `es.cat.indices`/`es.search`) is parameterised
  by an `Except String` response, the error case standing for a raised
  exception. `es.search` with a `term` query and `size` limit is modelled as
  filter-then-take on the index contents, per the store interface.
* Mutations return a `MutationOutcome`: the boolean result of the Python
  function, the updated document, the number of `es.update` calls issued,
  and the validation error shown via `st.error` (if any).
* `float` fields (`cost`) and the parameter mapping are opaque to every
  claim and are modelled as raw strings.
-/

namespace Distil

/-- A Python value passed as the `rating` argument of `rate_completion`:
either an `int` (`isinstance(rating, int)` holds) or a value of any other
type, on which the `isinstance` check fails. -/
inductive PyVal where
  | intV (n : Int)
  | nonIntV (descr : String)
  deriving DecidableEq, Repr

/-- One completion document: the `_source` fields requested by
`fetch_completions` plus the `_id` and `index` keys the Python code adds to
the dict. Absent document fields are `none`. -/
structure Completion where
  docId : String
  pipelineName : String
  pipelineHash : String
  input : Option String
  output : Option String
  parameters : Option (List (String × String))
  cost : Option String
  rating : Option Int
  tags : Option (List String)
  finetuned : Option Bool
  timestamp : Option String
  index : String
  deriving DecidableEq, Repr

/-- Result of a mutation-layer call (`add_tag` / `rate_completion`): the
Python return value, the document after the call, how many `es.update`
round trips were issued, and the validation error reported via `st.error`
before any store call (if any). -/
structure MutationOutcome where
  ok : Bool
  doc : Completion
  storeCalls : Nat
  uiError : Option String
  deriving DecidableEq, Repr

/-- The painless script sent by `add_tag` (app.py lines 153-160), applied to
the document's `_source`: if the `tags` field is absent initialise it to
`[]`; then append `params.tag` unless the array already contains it. -/
def tagScript (tag : String) (src : Completion) : Completion :=
  let tags := src.tags.getD []
  if tag ∈ tags then { src with tags := some tags }
  else { src with tags := some (tags ++ [tag]) }

/-- `add_tag(doc_id, tag, index)` (app.py lines 143-169) acting on the
document identified by `doc_id`: an empty tag (`if not tag`) is rejected
with an error and no store call; otherwise the conditional-append script is
executed server side by one `es.update` call and the function returns
`True`. -/
def add_tag (tag : String) (src : Completion) : MutationOutcome :=
  if tag = "" then ⟨false, src, 0, some "Tag cannot be empty"⟩
  else ⟨true, tagScript tag src, 1, none⟩

/-- `rate_completion(doc_id, rating, index)` (app.py lines 172-190):
rejects `rating` unless it is an `int` in `[1, 5]`, reporting a validation
error and issuing no store call; otherwise one `es.update` call overwrites
the `rating` field. -/
def rate_completion (rating : PyVal) (src : Completion) : MutationOutcome :=
  match rating with
  | .intV n =>
    if n < 1 ∨ 5 < n then ⟨false, src, 0, some "Rating must be between 1 and 5"⟩
    else ⟨true, { src with rating := some n }, 1, none⟩
  | .nonIntV _ => ⟨false, src, 0, some "Rating must be between 1 and 5"⟩

/-- A concrete document with no `tags` field, used to instantiate the
universally quantified theorems. -/
def sampleDoc : Completion :=
  { docId := "d1", pipelineName := "pipe", pipelineHash := "h1",
    input := some "in", output := some "out", parameters := none,
    cost := none, rating := none, tags := none, finetuned := none,
    timestamp := none, index := "idx" }

/-- One row of the pipelines DataFrame built in tab 1 (app.py lines 80-84
and 236): the `_source` of the most recent document of a pipeline-hash
bucket, plus the bucket's `doc_count` (as `count`) and the index name. -/
structure Pipeline where
  pipelineName : String
  pipelineHash : String
  template : Option String
  tags : Option (List String)
  rating : Option Int
  finetuned : Option Bool
  timestamp : Option String
  count : Nat
  index : String
  deriving DecidableEq, Repr

/-- Python `str.lower()` as the character list of the lowercased string
(`String.toLower` maps `Char.toLower` over the characters; working on the
character list keeps the definition kernel-reducible). Python substring
containment `needle in hay` is `needle <:+: hay` on these lists. -/
def lowerChars (s : String) : List Char :=
  s.toList.map Char.toLower

/-- The per-cell lambda of the tag search filter (app.py line 242):
`search_query.lower() in ' '.join(x).lower() if x else False`, applied to
the `tags` column of the pipelines DataFrame. `some` is a document with the
field (its cell is the list); `none` is a document without it, whose cell
in a mixed DataFrame is the float NaN — truthy in Python — so the join
branch runs and `' '.join(nan)` raises TypeError (the `.error` case).
A present empty list is falsy and yields `False`; a present non-empty list
is joined with single spaces, lowercased, and searched for the lowercased
query. (When no fetched document has the field the column itself is absent
and `df['tags']` raises KeyError before the lambda runs; that frame shape
is outside every claim.) -/
def tagSearchKeep (search_query : String) (tags : Option (List String)) :
    Except String Bool :=
  match tags with
  | none => .error "TypeError"
  | some x =>
    if x.isEmpty then .ok false
    else .ok (decide (lowerChars search_query <:+: lowerChars (String.intercalate " " x)))

/-- The tag-search predicate as the claim's words state it: keep the entity
iff the query matches case-insensitively as a substring of the
concatenation of the entity's tags. Written from the spec's words (plain
concatenation, no separator), to be compared with `tagSearchKeep`, which is
read off the code. -/
def tagSearchKeepClaim (search_query : String) (tags : Option (List String)) : Bool :=
  decide (lowerChars search_query <:+: lowerChars (String.join (tags.getD [])))

/-- The flattening step of the tag-frequency chart of tab 2 (app.py line
361): `[tag for tags in df['tags'] for tag in (tags or [])]`, iterating
the `tags` cells left to right. A present tag list contributes its
elements (`[] or []` is `[]`, contributing nothing); a missing tags field
is a truthy NaN cell in a mixed DataFrame, so `(tags or [])` is NaN and
iterating it raises TypeError (the `.error` case, as for `tagSearchKeep`).
`value_counts()` then maps each tag to its number of occurrences in the
flattened list. -/
def allTags : List (Option (List String)) → Except String (List String)
  | [] => .ok []
  | some tags :: rest => do
    let more ← allTags rest
    pure (tags ++ more)
  | none :: _ => .error "TypeError"

/-- Elasticsearch `term` query on `pipelineHash.keyword` with `size` 100
(the search body of app.py lines 100-122), per the store interface: the
hits are the documents of the index whose `pipelineHash` equals the
queried hash exactly, capped at the first 100. -/
def esTermSearch (docs : List Completion) (pipeline_hash : String) : List Completion :=
  (docs.filter (fun d => decide (d.pipelineHash = pipeline_hash))).take 100

/-- The test `completions and '@timestamp' in completions[0]` (app.py line
132): the list is non-empty and its first element has a timestamp field. -/
def hasTimestampHead (l : List Completion) : Bool :=
  match l.head? with
  | some c => c.timestamp.isSome
  | none => false

/-- The sorting step of `fetch_completions` (app.py lines 131-135): a
stable Python `reverse=True` sort by timestamp (an absent timestamp reads
as `''`) when the first completion has one, otherwise by `_id` descending. -/
def sortCompletions (completions : List Completion) : List Completion :=
  if hasTimestampHead completions then
    completions.mergeSort (fun a b => decide (b.timestamp.getD "" ≤ a.timestamp.getD ""))
  else
    completions.mergeSort (fun a b => decide (b.docId ≤ a.docId))

/-- `fetch_completions(pipeline_hash, index)` (app.py lines 98-140): one
`es.search` against the given index (the index contents are given by
`store`, whose `.error` case stands for a raised store exception); each
hit's `_source` gets the `_id` and `index` keys, the list is sorted, and
any exception is caught and becomes an error banner plus the empty list. -/
def fetch_completions (store : String → Except String (List Completion))
    (pipeline_hash index : String) : List Completion × Option String :=
  match (store index).map (fun docs => esTermSearch docs pipeline_hash) with
  | .error e => ([], some ("Error fetching completions: " ++ e))
  | .ok hits => (sortCompletions (hits.map (fun c => { c with index := index })), none)

/-- One row of `es.cat.indices(format='json')` (app.py line 43): only its
`index` name matters to the code. -/
structure IndexInfo where
  index : String
  deriving DecidableEq, Repr

/-- The `_source` of the single `top_hits` hit of one `unique_pipelines`
bucket (the fields requested at app.py lines 63-71). -/
structure PipelineSource where
  pipelineName : String
  pipelineHash : String
  template : Option String
  tags : Option (List String)
  rating : Option Int
  finetuned : Option Bool
  timestamp : Option String
  deriving DecidableEq, Repr

/-- One bucket of the `unique_pipelines` terms aggregation: its
`doc_count` and the `_source` of its most recent document. -/
structure AggBucket where
  docCount : Nat
  latestDoc : PipelineSource
  deriving DecidableEq, Repr

/-- app.py lines 81-84: the bucket's top-hit `_source` with the `count`
and `index` keys added. -/
def bucketToPipeline (index : String) (b : AggBucket) : Pipeline :=
  { pipelineName := b.latestDoc.pipelineName, pipelineHash := b.latestDoc.pipelineHash,
    template := b.latestDoc.template, tags := b.latestDoc.tags,
    rating := b.latestDoc.rating, finetuned := b.latestDoc.finetuned,
    timestamp := b.latestDoc.timestamp, count := b.docCount, index := index }

/-- app.py line 44: the indices the aggregation loop runs over — every
index reported by `es.cat.indices` whose name does not start with `'.'`. -/
def pipelineIndexNames (indices : List IndexInfo) : List String :=
  (indices.filter (fun i => !(i.index.startsWith "."))).map IndexInfo.index

/-- The aggregation loop of `fetch_pipelines` (app.py lines 47-84): one
`es.search` per index, in order, collecting each bucket as one pipeline
row; a raised store exception aborts the loop. -/
def collectPipelines (search : String → Except String (List AggBucket)) :
    List String → Except String (List Pipeline)
  | [] => Except.ok []
  | idx :: rest => do
    let buckets ← search idx
    let more ← collectPipelines search rest
    pure (buckets.map (bucketToPipeline idx) ++ more)

/-- The test `pipelines and '@timestamp' in pipelines[0]` (app.py line 87). -/
def hasTimestampHeadPipeline (l : List Pipeline) : Bool :=
  match l.head? with
  | some p => p.timestamp.isSome
  | none => false

/-- The sorting step of `fetch_pipelines` (app.py lines 86-90): by
timestamp descending when the first row has one, else by count descending. -/
def sortPipelines (pipelines : List Pipeline) : List Pipeline :=
  if hasTimestampHeadPipeline pipelines then
    pipelines.mergeSort (fun a b => decide (b.timestamp.getD "" ≤ a.timestamp.getD ""))
  else
    pipelines.mergeSort (fun a b => decide (b.count ≤ a.count))

/-- The body of the `try` block of `fetch_pipelines` (app.py lines 42-92):
list the indices, drop the dot-prefixed ones, aggregate each remaining
index, and sort the merged rows. -/
def fetch_pipelinesExc (cat : Except String (List IndexInfo))
    (search : String → Except String (List AggBucket)) :
    Except String (List Pipeline) := do
  let indices ← cat
  let ps ← collectPipelines search (pipelineIndexNames indices)
  pure (sortPipelines ps)

/-- `fetch_pipelines()` (app.py lines 39-95): any exception raised in the
body is caught and becomes an error banner plus the empty list. -/
def fetch_pipelines (cat : Except String (List IndexInfo))
    (search : String → Except String (List AggBucket)) :
    List Pipeline × Option String :=
  match fetch_pipelinesExc cat search with
  | .ok ps => (ps, none)
  | .error e => ([], some ("Error fetching pipelines: " ++ e))

/-- C1: `add_tag` is idempotent: running the conditional-append script a
second time with the same tag leaves the document's tag set exactly as it
was after the first call (the script appends only if the tag is not already
contained, so no duplicate is ever added). -/
theorem add_tag_idempotent (tag : String) (src : Completion) :
    ((add_tag tag (add_tag tag src).doc).doc).tags = ((add_tag tag src).doc).tags := by
  unfold add_tag
  by_cases he : tag = ""
  · simp [he]
  · simp only [he, if_false]
    unfold tagScript
    by_cases h : tag ∈ src.tags.getD []
    · simp [h]
    · simp [h]

/-- C8: `add_tag` with the empty string as tag returns `False`, reports the
validation error, issues no store call, and leaves the document unchanged. -/
theorem add_tag_empty_rejected (src : Completion) :
    add_tag "" src = ⟨false, src, 0, some "Tag cannot be empty"⟩ := by
  simp [add_tag]

/-- C9: on a document with no `tags` field at all, `add_tag` with a
non-empty tag first initialises the field to `[]` and then appends the tag,
so the resulting tag set is exactly the singleton `[tag]`. -/
theorem add_tag_initialises_missing_tags (tag : String) (src : Completion)
    (hnone : src.tags = none) (hne : tag ≠ "") :
    ((add_tag tag src).doc).tags = some [tag] := by
  simp [add_tag, hne, tagScript, hnone]

/-- Witness for C9 at a concrete document without a `tags` field. -/
theorem add_tag_initialises_missing_tags_witness :
    sampleDoc.tags = none ∧ ("urgent" : String) ≠ "" ∧
      ((add_tag "urgent" sampleDoc).doc).tags = some ["urgent"] :=
  ⟨rfl, by decide,
    add_tag_initialises_missing_tags "urgent" sampleDoc rfl (by decide)⟩

/-- C2: `rate_completion` succeeds exactly on integer ratings in `[1, 5]`;
on any other input it reports a validation error, issues no store update,
and leaves the document (hence its stored rating) unchanged. -/
theorem rate_completion_validation (rating : PyVal) (src : Completion) :
    ((rate_completion rating src).ok = true ↔
        ∃ n : Int, rating = .intV n ∧ 1 ≤ n ∧ n ≤ 5) ∧
      ((rate_completion rating src).ok = false →
        (rate_completion rating src).doc = src ∧
          (rate_completion rating src).storeCalls = 0 ∧
          (rate_completion rating src).uiError = some "Rating must be between 1 and 5") := by
  cases rating with
  | intV n =>
    by_cases h : n < 1 ∨ 5 < n
    · simp [rate_completion, h]
      intro hm
      omega
    · simp [rate_completion, h]
      omega
  | nonIntV d => simp [rate_completion]

/-- Witness for C2 at the out-of-range rating `0` and the integer rating
`3` on a concrete document. -/
theorem rate_completion_validation_witness :
    ((rate_completion (.intV 0) sampleDoc).ok = false →
        (rate_completion (.intV 0) sampleDoc).doc = sampleDoc ∧
          (rate_completion (.intV 0) sampleDoc).storeCalls = 0 ∧
          (rate_completion (.intV 0) sampleDoc).uiError = some "Rating must be between 1 and 5") ∧
      ((rate_completion (.intV 3) sampleDoc).ok = true ↔
        ∃ n : Int, PyVal.intV 3 = .intV n ∧ 1 ≤ n ∧ n ≤ 5) :=
  ⟨(rate_completion_validation (.intV 0) sampleDoc).2,
    (rate_completion_validation (.intV 3) sampleDoc).1⟩

/-- C6 counterexample: with the non-empty query `"ab"`, the claim as
stated misdescribes the filter twice. On the present tag list
`["a", "b"]` the query is a substring of the plain concatenation `"ab"`
(so the claim keeps the row), but the code joins tags with a space and
evaluates to `False`; on a missing tag list the claim decides (the empty
concatenation contains no non-empty query, so the row would be dropped),
but the code raises TypeError on the truthy NaN cell instead of deciding. -/
theorem tag_search_concatenation_counterexample :
    ("ab" : String) ≠ "" ∧
      tagSearchKeepClaim "ab" (some ["a", "b"]) = true ∧
      tagSearchKeep "ab" (some ["a", "b"]) = .ok false ∧
      tagSearchKeepClaim "ab" none = false ∧
      tagSearchKeep "ab" none = .error "TypeError" :=
  ⟨by decide, by decide, rfl, by decide, rfl⟩

/-- C6 (amended): for every non-empty query, an entity whose tag list is
present is kept iff the list is non-empty and the lowercased query occurs
as a substring of the lowercased text obtained by joining the tags with
single spaces; on an entity whose tags field is missing (a truthy NaN cell
in the mixed DataFrame) the filter raises TypeError instead of deciding. -/
theorem tag_search_filter_matches_joined (search_query : String)
    (hq : search_query ≠ "") :
    (∀ x : List String,
        tagSearchKeep search_query (some x) = .ok true ↔
          x ≠ [] ∧
            lowerChars search_query <:+: lowerChars (String.intercalate " " x)) ∧
      tagSearchKeep search_query none = .error "TypeError" := by
  constructor
  · intro x
    by_cases hx : x.isEmpty
    · rw [List.isEmpty_iff] at hx
      subst hx
      simp [tagSearchKeep]
    · rw [List.isEmpty_iff] at hx
      simp [tagSearchKeep, List.isEmpty_iff, hx, decide_eq_true_eq]
  · rfl

/-- Witness for C6 (amended) at the query `"b a"` and tag list `["A", "b"]`. -/
theorem tag_search_filter_matches_joined_witness :
    ("b a" : String) ≠ "" ∧
      (tagSearchKeep "b a" (some ["A", "b"]) = .ok true ↔
        (["A", "b"] : List String) ≠ [] ∧
          lowerChars "b a" <:+: lowerChars (String.intercalate " " ["A", "b"])) ∧
      tagSearchKeep "b a" none = .error "TypeError" :=
  ⟨by decide, (tag_search_filter_matches_joined "b a" (by decide)).1 ["A", "b"],
    (tag_search_filter_matches_joined "b a" (by decide)).2⟩

/-- C7 counterexample: on the tags cells `[["a"], missing]`, the claim as
stated makes the missing list contribute nothing, flattening to `["a"]`;
the code instead raises TypeError iterating the truthy NaN cell. -/
theorem tag_frequency_missing_counterexample :
    allTags [some ["a"], none] = .error "TypeError" ∧
      allTags [some ["a"], none] ≠ .ok ["a"] :=
  ⟨rfl, fun h => Except.noConfusion h⟩

/-- C7 (amended): the tag-frequency computation flattens all present
per-row tag lists in order (an empty list contributing nothing) and counts
each tag's occurrences in the flattening, but a row with a missing tag
list raises TypeError rather than contributing nothing; on the present tag
lists `[["a","b"], [], ["a"]]` the flattening is `["a","b","a"]` and the
frequency of `"a"` is 2, of `"b"` is 1, and of every other tag 0. -/
theorem tag_frequency_flatten :
    allTags [some ["a"], none] = .error "TypeError" ∧
      (∀ (rows : List (List String)) (t : String),
        allTags (rows.map some) = .ok rows.flatten ∧
          rows.flatten.count t = (rows.map (fun tags => tags.count t)).sum) ∧
      allTags [some ["a", "b"], some [], some ["a"]] = .ok ["a", "b", "a"] ∧
      (∀ t : String,
        (["a", "b", "a"] : List String).count t =
          if t = "a" then 2 else if t = "b" then 1 else 0) := by
  refine ⟨rfl, ?_, rfl, ?_⟩
  · intro rows t
    constructor
    · induction rows with
      | nil => rfl
      | cons r rest ih =>
        simp [allTags, Bind.bind, Except.bind, ih, Pure.pure, Except.pure]
    · simp [List.count_flatten]
  · intro t
    by_cases ha : t = "a"
    · subst ha; decide
    · by_cases hb : t = "b"
      · subst hb; decide
      · simp [List.count_cons, beq_iff_eq, ha, hb]

/-- A stable merge sort on a key drawn from a linear order produces a list
that is pairwise descending in the key (the shape of every `reverse=True`
Python sort in the dashboard). -/
theorem pairwise_mergeSort_key {α β : Type} [LinearOrder β] (key : α → β) (l : List α) :
    (l.mergeSort (fun a b => decide (key b ≤ key a))).Pairwise
      (fun a b => key b ≤ key a) := by
  have h := @List.sorted_mergeSort _ (fun a b => decide (key b ≤ key a))
    (fun a b c hab hbc =>
      decide_eq_true (le_trans (of_decide_eq_true hbc) (of_decide_eq_true hab)))
    (fun a b => by
      simp only [Bool.or_eq_true, decide_eq_true_eq]
      exact le_total (key b) (key a)) l
  exact h.imp (fun hab => of_decide_eq_true hab)

/-- Sorting the completions list does not change its members. -/
theorem mem_sortCompletions {c : Completion} {l : List Completion} :
    c ∈ sortCompletions l ↔ c ∈ l := by
  unfold sortCompletions
  split <;> simp

/-- Sorting the completions list does not change its length. -/
theorem length_sortCompletions (l : List Completion) :
    (sortCompletions l).length = l.length := by
  unfold sortCompletions
  split <;> simp

/-- Sorting the pipelines list does not change its members. -/
theorem mem_sortPipelines {p : Pipeline} {l : List Pipeline} :
    p ∈ sortPipelines l ↔ p ∈ l := by
  unfold sortPipelines
  split <;> simp

/-- When every sorted completion has a timestamp, the sort branch taken is
the timestamp sort, so the result is pairwise descending in the timestamp. -/
theorem sortCompletions_pairwise_of_all_some (l : List Completion)
    (h : ∀ c ∈ sortCompletions l, c.timestamp.isSome = true) :
    (sortCompletions l).Pairwise
      (fun a b => b.timestamp.getD "" ≤ a.timestamp.getD "") := by
  by_cases hts : hasTimestampHead l = true
  · unfold sortCompletions
    rw [if_pos hts]
    exact pairwise_mergeSort_key (fun c => c.timestamp.getD "") l
  · cases hL : l with
    | nil => simp [sortCompletions, hL, hasTimestampHead]
    | cons c rest =>
      exfalso
      apply hts
      have hc : c ∈ sortCompletions l :=
        mem_sortCompletions.mpr (by rw [hL]; exact List.mem_cons_self c rest)
      have hsome := h c hc
      rw [hL]
      simp [hasTimestampHead, hsome]

/-- When no sorted completion has a timestamp, the sort branch taken is the
`_id` sort, so the result is pairwise descending in the identifier. -/
theorem sortCompletions_pairwise_of_all_none (l : List Completion)
    (h : ∀ c ∈ sortCompletions l, c.timestamp = none) :
    (sortCompletions l).Pairwise (fun a b => b.docId ≤ a.docId) := by
  by_cases hts : hasTimestampHead l = true
  · exfalso
    cases hL : l with
    | nil => rw [hL] at hts; simp [hasTimestampHead] at hts
    | cons c rest =>
      have hc : c ∈ sortCompletions l :=
        mem_sortCompletions.mpr (by rw [hL]; exact List.mem_cons_self c rest)
      have hnone := h c hc
      rw [hL] at hts
      simp [hasTimestampHead, hnone] at hts
  · unfold sortCompletions
    rw [if_neg hts]
    exact pairwise_mergeSort_key (fun c => c.docId) l

/-- C4: a store exception raised during either read query is caught and
surfaced only as an error banner, and the function returns the empty list:
no exception propagates to the caller of `fetch_pipelines` or
`fetch_completions`. -/
theorem store_errors_degrade_to_empty :
    (∀ (cat : Except String (List IndexInfo))
        (search : String → Except String (List AggBucket)) (e : String),
        fetch_pipelinesExc cat search = .error e →
        fetch_pipelines cat search = ([], some ("Error fetching pipelines: " ++ e))) ∧
      (∀ (store : String → Except String (List Completion))
          (pipeline_hash index e : String),
        store index = .error e →
        fetch_completions store pipeline_hash index =
          ([], some ("Error fetching completions: " ++ e))) := by
  constructor
  · intro cat search e h
    simp [fetch_pipelines, h]
  · intro store pipeline_hash index e h
    simp [fetch_completions, h, Except.map]

/-- Witness for C4 with a store that raises on every call. -/
theorem store_errors_degrade_to_empty_witness :
    fetch_pipelinesExc (Except.error "conn refused") (fun _ => Except.error "conn refused") =
        .error "conn refused" ∧
      fetch_pipelines (Except.error "conn refused") (fun _ => Except.error "conn refused") =
        ([], some ("Error fetching pipelines: " ++ "conn refused")) ∧
      (fun _ : String => (Except.error "conn refused" : Except String (List Completion))) "idx" =
        .error "conn refused" ∧
      fetch_completions (fun _ => Except.error "conn refused") "h1" "idx" =
        ([], some ("Error fetching completions: " ++ "conn refused")) :=
  ⟨rfl, store_errors_degrade_to_empty.1 _ _ "conn refused" rfl, rfl,
    store_errors_degrade_to_empty.2 _ "h1" "idx" "conn refused" rfl⟩

/-- C5: on a successful read, `fetch_completions` returns only completions
whose pipeline hash equals the queried hash, all carrying the queried
namespace, at most 100 of them; when every returned completion has a
timestamp they are sorted by timestamp descending, and when none has one
they are sorted by identifier descending. -/
theorem fetch_completions_spec (store : String → Except String (List Completion))
    (pipeline_hash index : String) (docs : List Completion)
    (hok : store index = .ok docs) :
    (∀ c ∈ (fetch_completions store pipeline_hash index).1,
        c.pipelineHash = pipeline_hash ∧ c.index = index) ∧
      (fetch_completions store pipeline_hash index).1.length ≤ 100 ∧
      ((∀ c ∈ (fetch_completions store pipeline_hash index).1, c.timestamp.isSome = true) →
        (fetch_completions store pipeline_hash index).1.Pairwise
          (fun a b => b.timestamp.getD "" ≤ a.timestamp.getD "")) ∧
      ((∀ c ∈ (fetch_completions store pipeline_hash index).1, c.timestamp = none) →
        (fetch_completions store pipeline_hash index).1.Pairwise
          (fun a b => b.docId ≤ a.docId)) := by
  have hres : (fetch_completions store pipeline_hash index).1 =
      sortCompletions ((esTermSearch docs pipeline_hash).map
        (fun c => { c with index := index })) := by
    simp [fetch_completions, hok, Except.map]
  rw [hres]
  refine ⟨?_, ?_, ?_, ?_⟩
  · intro c hc
    rw [mem_sortCompletions] at hc
    obtain ⟨d, hd, rfl⟩ := List.mem_map.mp hc
    have hd' : d ∈ docs.filter (fun d => decide (d.pipelineHash = pipeline_hash)) :=
      List.mem_of_mem_take hd
    have hmatch := (List.mem_filter.mp hd').2
    simp only [decide_eq_true_eq] at hmatch
    exact ⟨hmatch, rfl⟩
  · rw [length_sortCompletions, List.length_map]
    exact List.length_take_le 100 _
  · exact sortCompletions_pairwise_of_all_some _
  · exact sortCompletions_pairwise_of_all_none _

/-- Witness for C5 on a one-document store. -/
theorem fetch_completions_spec_witness :
    (fun _ : String => (Except.ok [sampleDoc] : Except String (List Completion))) "i" =
        .ok [sampleDoc] ∧
      (∀ c ∈ (fetch_completions (fun _ => .ok [sampleDoc]) "h1" "i").1,
        c.pipelineHash = "h1" ∧ c.index = "i") ∧
      (fetch_completions (fun _ => .ok [sampleDoc]) "h1" "i").1.length ≤ 100 :=
  ⟨rfl,
    (fetch_completions_spec (fun _ => .ok [sampleDoc]) "h1" "i" [sampleDoc] rfl).1,
    (fetch_completions_spec (fun _ => .ok [sampleDoc]) "h1" "i" [sampleDoc] rfl).2.1⟩

/-- Every pipeline row produced by a successful aggregation loop comes
from one of the looped-over indices. -/
theorem mem_collectPipelines (search : String → Except String (List AggBucket)) :
    ∀ (names : List String) (ps : List Pipeline),
      collectPipelines search names = .ok ps → ∀ p ∈ ps, p.index ∈ names := by
  intro names
  induction names with
  | nil =>
    intro ps h p hp
    simp only [collectPipelines] at h
    cases h
    simp at hp
  | cons idx rest ih =>
    intro ps h p hp
    simp only [collectPipelines] at h
    cases hs : search idx with
    | error e => rw [hs] at h; simp [Bind.bind, Except.bind] at h
    | ok buckets =>
      rw [hs] at h
      cases hm : collectPipelines search rest with
      | error e => rw [hm] at h; simp [Bind.bind, Except.bind] at h
      | ok more =>
        rw [hm] at h
        simp only [Bind.bind, Except.bind, Pure.pure, Except.pure, Except.ok.injEq] at h
        subst h
        rcases List.mem_append.mp hp with h1 | h2
        · obtain ⟨b, hb, rfl⟩ := List.mem_map.mp h1
          exact List.mem_cons_self idx rest
        · exact List.mem_cons_of_mem idx (ih more hm p h2)

/-- C10: the aggregation loop of `fetch_pipelines` runs over exactly the
reported store indices whose names do not start with `'.'`, and
consequently every pipeline row returned by a successful call carries one
of those index names. -/
theorem fetch_pipelines_skips_system_indices :
    (∀ (indices : List IndexInfo) (n : String),
        n ∈ pipelineIndexNames indices ↔
          n ∈ indices.map IndexInfo.index ∧ ¬n.startsWith "." = true) ∧
      (∀ (cat : Except String (List IndexInfo))
          (search : String → Except String (List AggBucket))
          (indices : List IndexInfo),
        cat = .ok indices →
        ∀ p ∈ (fetch_pipelines cat search).1, p.index ∈ pipelineIndexNames indices) := by
  constructor
  · intro indices n
    simp only [pipelineIndexNames, List.mem_map, List.mem_filter,
      Bool.not_eq_true', Bool.not_eq_true]
    constructor
    · rintro ⟨i, ⟨hi, hdot⟩, rfl⟩
      exact ⟨⟨i, hi, rfl⟩, by simpa using hdot⟩
    · rintro ⟨⟨i, hi, rfl⟩, hdot⟩
      exact ⟨i, ⟨hi, by simpa using hdot⟩, rfl⟩
  · intro cat search indices hcat p hp
    subst hcat
    cases hc : collectPipelines search (pipelineIndexNames indices) with
    | error e =>
      have hfp : fetch_pipelines (.ok indices) search =
          ([], some ("Error fetching pipelines: " ++ e)) := by
        simp [fetch_pipelines, fetch_pipelinesExc, Bind.bind, Except.bind, hc]
      rw [hfp] at hp
      simp at hp
    | ok ps =>
      have hfp : fetch_pipelines (.ok indices) search = (sortPipelines ps, none) := by
        simp [fetch_pipelines, fetch_pipelinesExc, Bind.bind, Except.bind, hc,
          Pure.pure, Except.pure]
      rw [hfp] at hp
      exact mem_collectPipelines search _ ps hc p (mem_sortPipelines.mp hp)

/-- Witness for C10 on a catalogue holding one system and one data index. -/
theorem fetch_pipelines_skips_system_indices_witness :
    (Except.ok [({ index := ".kibana" } : IndexInfo), { index := "logs" }] :
        Except String (List IndexInfo)) =
      .ok [{ index := ".kibana" }, { index := "logs" }] ∧
      ∀ p ∈ (fetch_pipelines
          (.ok [({ index := ".kibana" } : IndexInfo), { index := "logs" }])
          (fun _ => .ok [])).1,
        p.index ∈ pipelineIndexNames [{ index := ".kibana" }, { index := "logs" }] :=
  ⟨rfl, fetch_pipelines_skips_system_indices.2 _ (fun _ => .ok []) _ rfl⟩

end Distil
